import Mathlib

/-!
Verification development for the QATCH dataset-generation core: a shallow
embedding, in Lean 4, of the schema-abstraction layer and of the checklist
generators of the `benchmark-your-db` repository, together with theorems
settling the frozen claims about them.

Embedded source files:
* `qatch_v_2/generate_dataset/checklist_generators/select_generator.py`
* `qatch_v_2/connectors/sqlite_connector.py`
* `qatch/generate_dataset/orchestrator_generator.py`
* `src/test_generator/sql_generator/abstract_sql_generator.py`

Python's global pseudo-random source is embedded as an explicit stream of
naturals (`RNG`): each call that consumes randomness takes the stream and
returns the rest of it, and a drawn natural is reduced modulo the size of the
collection drawn from.  Python dictionaries are embedded as association lists
in insertion order, with `dictInsert` giving the overwrite-in-place semantics
of `d[k] = v` and of dict comprehensions.  Fallible operations (`random.choice`
on an empty sequence, `d[k]` on a missing key) return `Option`.
-/

namespace QatchSpec

/-- A scalar database / pandas value: a string, an integer, or SQL NULL
(Python `None` / pandas missing value). -/
inductive Value where
  | str (s : String)
  | num (n : Int)
  | null
deriving DecidableEq, Repr

/-- How Python's `str()` renders a value inside an f-string (`None` for null). -/
def Value.toPyStr : Value → String
  | .str s => s
  | .num n => toString n
  | .null => "None"

/-- The explicit random source: a stream of naturals, one consumed per draw. -/
abbrev RNG := List Nat

/-- Consume one natural from the random source (0 when exhausted). -/
def RNG.next : RNG → Nat × RNG
  | [] => (0, [])
  | r :: rs => (r, rs)

/-- Embedding of Python's `random.choice(xs)`: draws the element at a
random index; fails (IndexError) on an empty sequence. -/
def randomChoice (xs : List α) (rng : RNG) : Option (α × RNG) :=
  let (r, rng1) := rng.next
  match xs with
  | [] => none
  | x :: rest => some ((x :: rest).getD (r % (x :: rest).length) x, rng1)

/-- One random draw without replacement: the drawn element and the remainder. -/
def pickOne (xs : List α) (rng : RNG) : Option (α × List α × RNG) :=
  let (r, rng1) := rng.next
  match xs with
  | [] => none
  | x :: rest =>
    let l := x :: rest
    let i := r % l.length
    some (l.getD i x, l.take i ++ l.drop (i + 1), rng1)

/-- Draw `k` elements without replacement (all of them when fewer exist). -/
def sampleWithoutReplacement : Nat → List α → RNG → List α × RNG
  | 0, _, rng => ([], rng)
  | Nat.succ k, xs, rng =>
    match pickOne xs rng with
    | none => ([], rng)
    | some (x, rest, rng1) =>
      let (ys, rng2) := sampleWithoutReplacement k rest rng1
      (x :: ys, rng2)

/-- Modelled from the spec: `utils_list_sample` (imported by the Select
generator from `checklist_generators/utils`, a module not among the
repository's files) samples at most `k` elements of a collection without
replacement, returning the whole collection unchanged, in insertion order,
when it holds at most `k`. -/
def utilsListSample (xs : List α) (k : Nat) (rng : RNG) : List α × RNG :=
  if xs.length ≤ k then (xs, rng) else sampleWithoutReplacement k xs rng

/-- Python dict assignment `d[k] = v` on an insertion-ordered association
list: overwrite in place when the key exists, append otherwise. -/
def dictInsert (k : String) (v : β) : List (String × β) → List (String × β)
  | [] => [(k, v)]
  | (k2, v2) :: rest =>
    if k2 = k then (k, v) :: rest else (k2, v2) :: dictInsert k v rest

/-- Python dict lookup `d.get(k)`: the first (hence only) binding of `k`. -/
def dictLookup (m : List (String × β)) (k : String) : Option β :=
  match m with
  | [] => none
  | (k2, v) :: rest => if k2 = k then some v else dictLookup rest k

/-! ### The schema model (`connectors/connector.py` dataclasses) -/

/-- Embedding of `ConnectorTableColumn`: name, type class (`'categorical'` or
`'numerical'`; `None` is possible for a primary-key column of unrecognized
type), and the sampled literal pool. -/
structure ConnectorTableColumn where
  column_name : String
  column_type : Option String
  sample_data : List Value
deriving DecidableEq, Repr

/-- Embedding of `ConnectorTable` as built by
`SqliteConnector._create_connector_table_from`: the `foreign_keys` field holds
the connector's raw mapping, keyed by TARGET table name with the target column
name as value (`{target_fullname.split('.')[0]: target_fullname.split('.')[1]}`). -/
structure ConnectorTable where
  db_path : String
  db_name : String
  tbl_name : String
  tbl_col2metadata : List (String × ConnectorTableColumn)
  cat_col2metadata : List (String × ConnectorTableColumn)
  num_col2metadata : List (String × ConnectorTableColumn)
  primary_key : Option (List ConnectorTableColumn)
  foreign_keys : List (String × String)
deriving DecidableEq, Repr

/-- Embedding of the `SingleQA` record a checklist generator emits. -/
structure SingleQA where
  query : String
  question : String
  sql_tag : String
deriving DecidableEq, Repr

/-! ### The Select generator (`select_generator.py`) -/

/-- The operator list of `SelectGenerator.test_where_cat`. -/
def selectCatOperations : List (String × String) :=
  [("==", "is equal to"), ("!=", "is different from"), ("!=", "not equal to")]

/-- The operator list of `SelectGenerator.test_where_num`. -/
def selectNumOperations : List (String × String) :=
  [(">", "is greater than"), ("<", "is less than")]

/-- The WHERE-CAT query f-string of `test_where_cat` (literal in quotes). -/
def whereCatQuery (tableName colName opSql lit : String) : String :=
  s!"SELECT * FROM `{tableName}` WHERE `{colName}` {opSql} '{lit}'"

/-- The WHERE-NUM query f-string of `test_where_num` (bare literal). -/
def whereNumQuery (tableName colName opSql lit : String) : String :=
  s!"SELECT * FROM `{tableName}` WHERE `{colName}` {opSql} {lit}"

/-- The inner operator loop of `test_where_cat` for one categorical column:
one `random.choice` from the column's sample pool per operator. -/
def whereCatOps (tableName colName : String) (md : ConnectorTableColumn) :
    List (String × String) → RNG → Option (List SingleQA × RNG)
  | [], rng => some ([], rng)
  | (opSql, opTxt) :: ops, rng =>
    match randomChoice md.sample_data rng with
    | none => none
    | some (sampleElement, rng1) =>
      match whereCatOps tableName colName md ops rng1 with
      | none => none
      | some (rest, rng2) =>
        some ({ query := whereCatQuery tableName colName opSql sampleElement.toPyStr
                question := s!"Show the data of the table {tableName} where {colName} {opTxt} {sampleElement.toPyStr}"
                sql_tag := "WHERE-CAT" } :: rest, rng2)

/-- The outer column loop of `test_where_cat` over the sampled columns. -/
def whereCatCols (tableName : String) :
    List (String × ConnectorTableColumn) → RNG → Option (List SingleQA × RNG)
  | [], rng => some ([], rng)
  | (colName, md) :: rest, rng =>
    match whereCatOps tableName colName md selectCatOperations rng with
    | none => none
    | some (ts1, rng1) =>
      match whereCatCols tableName rest rng1 with
      | none => none
      | some (ts2, rng2) => some (ts1 ++ ts2, rng2)

/-- Embedding of `SelectGenerator.test_where_cat`: sample at most 3
categorical columns, then cross each with the 3 operators. -/
def test_where_cat (catCols : List (String × ConnectorTableColumn))
    (tableName : String) (rng : RNG) : Option (List SingleQA × RNG) :=
  let (sampled, rng1) := utilsListSample catCols 3 rng
  whereCatCols tableName sampled rng1

/-- Whether `'id' in s.lower()` holds, on the character list of `s.lower()`. -/
def hasIdSub : List Char → Bool
  | 'i' :: 'd' :: _ => true
  | _ :: rest => hasIdSub rest
  | [] => false

/-- Python's `'id' in col.lower()`: lowercase every character, then look for
the substring `id`. -/
def containsId (col : String) : Bool :=
  hasIdSub (col.toList.map Char.toLower)

/-- The inner operator loop of `test_where_num` for one numerical column. -/
def whereNumOps (tableName colName : String) (md : ConnectorTableColumn) :
    List (String × String) → RNG → Option (List SingleQA × RNG)
  | [], rng => some ([], rng)
  | (opSql, opTxt) :: ops, rng =>
    match randomChoice md.sample_data rng with
    | none => none
    | some (sampleElement, rng1) =>
      match whereNumOps tableName colName md ops rng1 with
      | none => none
      | some (rest, rng2) =>
        some ({ query := whereNumQuery tableName colName opSql sampleElement.toPyStr
                question := s!"Show the data of the table {tableName} where {colName} {opTxt} {sampleElement.toPyStr}"
                sql_tag := "WHERE-NUM" } :: rest, rng2)

/-- The outer column loop of `test_where_num`. -/
def whereNumCols (tableName : String) :
    List (String × ConnectorTableColumn) → RNG → Option (List SingleQA × RNG)
  | [], rng => some ([], rng)
  | (colName, md) :: rest, rng =>
    match whereNumOps tableName colName md selectNumOperations rng with
    | none => none
    | some (ts1, rng1) =>
      match whereNumCols tableName rest rng1 with
      | none => none
      | some (ts2, rng2) => some (ts1 ++ ts2, rng2)

/-- Embedding of `SelectGenerator.test_where_num`: sample at most 3 column
names, rebuild the dict keeping only names not containing `'id'`
case-insensitively, then cross each kept column with the 2 operators.
The lookup in the rebuilt comprehension cannot miss (the sampled names come
from the dict's own keys); a missing key is embedded as a skip. -/
def test_where_num (numCols : List (String × ConnectorTableColumn))
    (tableName : String) (rng : RNG) : Option (List SingleQA × RNG) :=
  let (numColsName, rng1) := utilsListSample (numCols.map Prod.fst) 3 rng
  let filtered := numColsName.foldl
    (fun acc col =>
      if containsId col then acc
      else
        match dictLookup numCols col with
        | some md => dictInsert col md acc
        | none => acc) []
  whereNumCols tableName filtered rng1

/-- Embedding of `SelectGenerator.template_generator`: the WHERE-CAT tests
followed by the WHERE-NUM tests. -/
def template_generator (table : ConnectorTable) (rng : RNG) :
    Option (List SingleQA × RNG) :=
  match test_where_cat table.cat_col2metadata table.tbl_name rng with
  | none => none
  | some (t1, rng1) =>
    match test_where_num table.num_col2metadata table.tbl_name rng1 with
    | none => none
    | some (t2, rng2) => some (t1 ++ t2, rng2)

/-- State-passing form of `SelectGenerator.template_generator`: the received
`ConnectorTable` is threaded as mutable state, every attribute access of the
method body is an explicit read, and the body performs no write.  Used to
express that the generator leaves the table it receives unchanged. -/
def templateGeneratorST (rng : RNG) :
    StateM ConnectorTable (Option (List SingleQA × RNG)) := do
  let tableName ← fun t => (t.tbl_name, t)
  let catCols ← fun t => (t.cat_col2metadata, t)
  let numCols ← fun t => (t.num_col2metadata, t)
  pure (
    match test_where_cat catCols tableName rng with
    | none => none
    | some (t1, rng1) =>
      match test_where_num numCols tableName rng1 with
      | none => none
      | some (t2, rng2) => some (t1 ++ t2, rng2))

/-! ### The SQLite connector (`sqlite_connector.py`) -/

/-- The SQLAlchemy column types the connector distinguishes. -/
inductive SqlAlchemyType where
  | string
  | numeric
  | integer
  | other
deriving DecidableEq, Repr

/-- Embedding of `convert_sqlalchemy_type_to_string`. -/
def convert_sqlalchemy_type_to_string : SqlAlchemyType → Option String
  | .string => some "categorical"
  | .numeric => some "numerical"
  | .integer => some "numerical"
  | .other => none

/-- One reflected column of a live table: its name, its SQLAlchemy type and
its data in row order (NULL cells are `Value.null`). -/
structure RawColumn where
  name : String
  ctype : SqlAlchemyType
  values : List Value
deriving DecidableEq, Repr

/-- One reflected foreign key: the local (parent) column and the
`target_fullname` pair `target_table.target_column`.  The connector's code
reads only `target_fullname`; the parent column is carried for stating
specification claims about it. -/
structure RawForeignKey where
  parent_column : String
  target_table : String
  target_column : String
deriving DecidableEq, Repr

/-- One reflected table of the live database (`sqlalchemy.Table`). -/
structure RawTable where
  name : String
  columns : List RawColumn
  primary_key : List RawColumn
  foreign_keys : List RawForeignKey
deriving DecidableEq, Repr

/-- Distinct values in first-occurrence order, as `SELECT DISTINCT` returns
them from SQLite when no ordering is requested. -/
def distinctFirstAux (seen : List Value) : List Value → List Value
  | [] => []
  | v :: rest =>
    if v ∈ seen then distinctFirstAux seen rest
    else v :: distinctFirstAux (v :: seen) rest

/-- Distinct values of a column in first-occurrence order. -/
def distinctFirst (vs : List Value) : List Value :=
  distinctFirstAux [] vs

/-- The data of the named column of a reflected table ([] when absent). -/
def colValues (tbl : RawTable) (colName : String) : List Value :=
  match tbl.columns.find? (fun c => c.name = colName) with
  | some c => c.values
  | none => []

/-- Embedding of `SqliteConnector._sample_data_from_col`: the first 5 distinct
values for a categorical column, the first 5 raw values otherwise. -/
def sample_data_from_col (tbl : RawTable) (colName : String)
    (type_ : Option String) : List Value :=
  if type_ = some "categorical" then (distinctFirst (colValues tbl colName)).take 5
  else (colValues tbl colName).take 5

/-- Embedding of `SqliteConnector.get_columns_metadata_from`: one
`ConnectorTableColumn` per column whose type converts, in column order. -/
def get_columns_metadata_from (tbl : RawTable) :
    List (String × ConnectorTableColumn) :=
  tbl.columns.foldl
    (fun out col =>
      match convert_sqlalchemy_type_to_string col.ctype with
      | none => out
      | some type_string =>
        dictInsert col.name
          { column_name := col.name
            column_type := some type_string
            sample_data := sample_data_from_col tbl col.name (some type_string) }
          out)
    []

/-- Embedding of `SqliteConnector._extract_primary_key`. -/
def extract_primary_key (tbl : RawTable) : Option (List ConnectorTableColumn) :=
  let primary_keys := tbl.primary_key.map (fun col =>
    let type_string := convert_sqlalchemy_type_to_string col.ctype
    { column_name := col.name
      column_type := type_string
      sample_data := sample_data_from_col tbl col.name type_string
      : ConnectorTableColumn })
  if primary_keys = [] then none else some primary_keys

/-- The raw foreign-key mapping of `_create_connector_table_from`: the dict
comprehension keyed by TARGET table name with the target column as value. -/
def rawFkDict (fks : List RawForeignKey) : List (String × String) :=
  fks.foldl (fun acc fk => dictInsert fk.target_table fk.target_column acc) []

/-- Embedding of `SqliteConnector._create_connector_table_from`. -/
def create_connector_table_from (db_path db_name : String) (tbl : RawTable) :
    ConnectorTable :=
  let tbl_col2metadata := get_columns_metadata_from tbl
  { db_path := db_path
    db_name := db_name
    tbl_name := tbl.name
    tbl_col2metadata := tbl_col2metadata
    cat_col2metadata :=
      tbl_col2metadata.filter (fun p => p.2.column_type = some "categorical")
    num_col2metadata :=
      tbl_col2metadata.filter (fun p => p.2.column_type = some "numerical")
    primary_key := extract_primary_key tbl
    foreign_keys := rawFkDict tbl.foreign_keys }

/-- A `ConnectorTable` after `_update_foreign_key`: the raw mapping has been
replaced by a mapping from target column name to the referenced table.  The
Python code rewrites `tbl.foreign_keys` in place with references to the
shared (also-rewritten) `ConnectorTable` objects; that reference cycle cannot
exist in a pure model, so the stored value is the pre-resolution snapshot of
the referenced table, which agrees with the Python object on every field the
claims inspect (`tbl_name`, column metadata, primary key). -/
structure ResolvedTable where
  base : ConnectorTable
  resolved_foreign_keys : List (String × ConnectorTable)
deriving DecidableEq, Repr

/-- The per-table body of `_update_foreign_key`: for each raw entry
`(target_table, target_column)` insert `new_foreign_key[target_column] =
tbl_name2table[target_table]`; fails (KeyError) when a target table is not in
the mapping. -/
def resolve_table_fks (m0 : List (String × ConnectorTable))
    (t : ConnectorTable) : Option (List (String × ConnectorTable)) :=
  t.foreign_keys.foldlM
    (fun acc fk => (dictLookup m0 fk.1).map (fun tgt => dictInsert fk.2 tgt acc))
    []

/-- Embedding of `SqliteConnector._update_foreign_key`. -/
def update_foreign_key (m0 : List (String × ConnectorTable)) :
    Option (List (String × ResolvedTable)) :=
  m0.mapM (fun p =>
    (resolve_table_fks m0 p.2).map (fun nfk => (p.1, ⟨p.2, nfk⟩)))

/-- Embedding of `SqliteConnector.load_tables_from_database`: build a
`ConnectorTable` per reflected table, then resolve every foreign key. -/
def load_tables_from_database (db_path db_name : String) (db : List RawTable) :
    Option (List (String × ResolvedTable)) :=
  update_foreign_key (db.map (fun t => (t.name, create_connector_table_from db_path db_name t)))

/-- The two schema-construction failures of `SqliteConnector.__init__`
(both raised as `ValueError` in the source). -/
inductive SchemaError where
  | conflict
  | empty
deriving DecidableEq, Repr

/-- Python truthiness of the `tables` argument: `None` and an empty dict are
both falsy, so an empty supplied mapping counts as no table data. -/
def suppliedTables (tables : Option (List (String × α))) : Bool :=
  match tables with
  | none => false
  | some ts => !ts.isEmpty

/-- Embedding of the schema checks of `SqliteConnector.__init__` (lines
22-41): `reflected` is the list of table names found by `metadata.reflect`,
`tables` the optional supplied name-to-DataFrame mapping, `created` the names
under which `_set_tables_in_db` would create the supplied tables.  On success
the final list of table names is returned. -/
def sqliteConnectorInit (reflected : List String)
    (tables : Option (List (String × α))) : Except SchemaError (List String) :=
  if reflected ≠ [] ∧ suppliedTables tables then .error .conflict
  else if reflected = [] ∧ ¬ suppliedTables tables then .error .empty
  else if reflected = [] ∧ suppliedTables tables then
    .ok ((tables.getD []).map (fun p => if p.1 = "table" then "my_table" else p.1))
  else .ok reflected

/-- The name under which `_set_tables_in_db` creates a supplied table:
`'table'` becomes `'my_table'`, every other name is used unchanged. -/
def createdTableName (name : String) : String :=
  if name = "table" then "my_table" else name

/-- Embedding of `SqliteConnector._set_tables_in_db`: the database state is an
association list from table name to stored contents; both the plain `to_sql`
branch and the CREATE-then-append branch end with the supplied contents stored
under the (possibly renamed) name, which is all the model keeps of them. -/
def set_tables_in_db (tables : List (String × α)) (db : List (String × α)) :
    List (String × α) :=
  tables.foldl
    (fun d p =>
      let name := if p.1 = "table" then "my_table" else p.1
      dictInsert name p.2 d)
    db

/-- The same storing loop without the rename of `'table'`: the reference
point, following the spec's words, against which the rename is stated. -/
def set_tables_in_db_no_rename (tables : List (String × α))
    (db : List (String × α)) : List (String × α) :=
  tables.foldl (fun d p => dictInsert p.1 p.2 d) db

/-! ### The orchestrator (`orchestrator_generator.py`) -/

/-- One stamped record of `generated_templates`: a generator's `SingleQA`
with the identity fields the orchestration adds. -/
structure GeneratedRecord where
  db_path : String
  db_id : String
  tbl_name : String
  test_category : String
  sql_tag : String
  query : String
  question : String
deriving DecidableEq, Repr

/-- The column projection `generate_dataset` applies to a non-empty frame. -/
def datasetColumns : List String :=
  ["db_path", "db_id", "tbl_name", "test_category", "sql_tag", "query", "question"]

/-- A pandas DataFrame, reduced to what the claims observe: its column list
and its rows. -/
structure PdFrame where
  columns : List String
  records : List GeneratedRecord
deriving DecidableEq, Repr

/-- `pd.DataFrame(records)`: the records' seven keys as columns, except that
the frame built from an empty list has NO columns at all. -/
def pdFrameOfRecords (rs : List GeneratedRecord) : PdFrame :=
  if rs.isEmpty then { columns := [], records := [] }
  else { columns := datasetColumns, records := rs }

/-- Embedding of the tail of `OrchestratorGenerator.generate_dataset` (lines
106-119): from the `generated_templates` the graph produced and the
connector's `db_path`, the returned DataFrame and the list of warnings
logged.  A non-empty frame is projected onto the seven dataset columns; an
empty one is returned as built and one warning naming the database path is
logged. -/
def generate_dataset_tail (db_path : String)
    (generated_templates : List GeneratedRecord) : PdFrame × List String :=
  let dataset := pdFrameOfRecords generated_templates
  if dataset.records.length > 0 then
    ({ dataset with columns := datasetColumns }, [])
  else
    (dataset, [s!"QATCH not able to generate tests from {db_path}"])

/-! ### The legacy generator base (`abstract_sql_generator.py`) -/

/-- A pandas dtype after `infer_objects`, as far as the code distinguishes. -/
inductive PdDtype where
  | object
  | float
  | int
  | other
deriving DecidableEq, Repr

/-- One DataFrame column: name, inferred dtype and cells (missing = null). -/
structure PdColumn where
  name : String
  dtype : PdDtype
  cells : List Value
deriving DecidableEq, Repr

/-- A pandas DataFrame as a list of columns. -/
structure PdDataFrame where
  cols : List PdColumn
deriving DecidableEq, Repr

/-- `series.fillna(sentinel)`: replace every missing cell by the sentinel. -/
def fillna (sentinel : Value) (c : PdColumn) : PdColumn :=
  { c with cells := c.cells.map (fun v => if v = .null then sentinel else v) }

/-- `df[name] = df[name].fillna(sentinel)`: update the named column. -/
def dfFillCol (df : PdDataFrame) (name : String) (sentinel : Value) :
    PdDataFrame :=
  ⟨df.cols.map (fun c => if c.name = name then fillna sentinel c else c)⟩

/-- Embedding of `AbstractSqlGenerator._get_df_cat_num_cols`: partition the
column names by inferred dtype (`object` categorical; `float` then `int`
numerical), fill missing categorical cells with the string `"unknown"` and
missing numerical cells with `0`, and optionally draw `sample` column names of
each class without replacement (`random.sample`, guarded to apply only when at
least `sample` names exist).  Returns the filled frame, the categorical and
numerical name lists and the rest of the random source. -/
def get_df_cat_num_cols (df : PdDataFrame) (sample : Option Nat) (rng : RNG) :
    PdDataFrame × List String × List String × RNG :=
  let cat_cols := (df.cols.filter (fun c => c.dtype = PdDtype.object)).map (fun c => c.name)
  let num_cols :=
    (df.cols.filter (fun c => c.dtype = PdDtype.float)).map (fun c => c.name)
      ++ (df.cols.filter (fun c => c.dtype = PdDtype.int)).map (fun c => c.name)
  let df1 := cat_cols.foldl (fun d n => dfFillCol d n (Value.str "unknown")) df
  let df2 := num_cols.foldl (fun d n => dfFillCol d n (Value.num 0)) df1
  match sample with
  | none => (df2, cat_cols, num_cols, rng)
  | some k =>
    let (cat2, rng1) :=
      if k ≤ cat_cols.length then sampleWithoutReplacement k cat_cols rng
      else (cat_cols, rng)
    let (num2, rng2) :=
      if k ≤ num_cols.length then sampleWithoutReplacement k num_cols rng1
      else (num_cols, rng1)
    (df2, cat2, num2, rng2)

/-! ### Concrete fixtures for witnesses and counterexamples -/

/-- A categorical column with two sampled values. -/
def colDept : ConnectorTableColumn :=
  { column_name := "dept", column_type := some "categorical"
    sample_data := [.str "eng", .str "hr"] }

/-- A numerical column with three sampled values. -/
def colSalary : ConnectorTableColumn :=
  { column_name := "salary", column_type := some "numerical"
    sample_data := [.num 100, .num 200, .num 150] }

/-- A numerical key-like column whose name contains `id`. -/
def colUserId : ConnectorTableColumn :=
  { column_name := "user_ID", column_type := some "numerical"
    sample_data := [.num 1, .num 2] }

/-- An `Employees` table with one categorical and one numerical column. -/
def tblW : ConnectorTable :=
  { db_path := "p", db_name := "d", tbl_name := "Employees"
    tbl_col2metadata := [("dept", colDept), ("salary", colSalary)]
    cat_col2metadata := [("dept", colDept)]
    num_col2metadata := [("salary", colSalary)]
    primary_key := none, foreign_keys := [] }

/-- The Select generator's output on `tblW` with the zero random stream. -/
def tblWOut : List SingleQA × RNG :=
  (template_generator tblW []).getD ([], [])

/-- A table whose only categorical column has an EMPTY sample pool (a table
with no rows): the boundary case of the empty-pool claim. -/
def tblEP : ConnectorTable :=
  { db_path := "p", db_name := "d", tbl_name := "T"
    tbl_col2metadata :=
      [("dept", { column_name := "dept", column_type := some "categorical"
                  sample_data := [] })]
    cat_col2metadata :=
      [("dept", { column_name := "dept", column_type := some "categorical"
                  sample_data := [] })]
    num_col2metadata := []
    primary_key := none, foreign_keys := [] }

/-- A table with a key-like numerical column next to an ordinary one. -/
def tblNum : ConnectorTable :=
  { db_path := "p", db_name := "d", tbl_name := "T"
    tbl_col2metadata := [("user_ID", colUserId), ("salary", colSalary)]
    cat_col2metadata := []
    num_col2metadata := [("user_ID", colUserId), ("salary", colSalary)]
    primary_key := none, foreign_keys := [] }

/-- The Select generator's output on `tblNum` with the zero random stream. -/
def tblNumOut : List SingleQA × RNG :=
  (template_generator tblNum []).getD ([], [])

/-- A two-table database whose foreign key `A.x → B.y` has a LOCAL column
name (`x`) different from the target column name (`y`). -/
def dbC2 : List RawTable :=
  [ { name := "A"
      columns := [{ name := "x", ctype := .integer, values := [.num 1] }]
      primary_key := []
      foreign_keys := [{ parent_column := "x", target_table := "B", target_column := "y" }] },
    { name := "B"
      columns := [{ name := "y", ctype := .integer, values := [.num 1] }]
      primary_key := []
      foreign_keys := [] } ]

/-- The first raw table of `dbC2` (the foreign-key owner). -/
def dbC2TblA : RawTable := dbC2.headD ⟨"", [], [], []⟩

/-- The raw foreign key `A.x → B.y` of `dbC2`. -/
def dbC2Fk : RawForeignKey := dbC2TblA.foreign_keys.headD ⟨"", "", ""⟩

/-- The second raw table of `dbC2` (the foreign-key target). -/
def dbC2TblB : RawTable := (dbC2.drop 1).headD ⟨"", [], [], []⟩

/-- The target column `B.y` of `dbC2`. -/
def dbC2ColY : RawColumn := dbC2TblB.columns.headD ⟨"", .other, []⟩

/-- A database in which table `A` declares TWO foreign keys to the same
target table `B` (`A.x → B.y` and `A.z → B.w`). -/
def dbC9 : List RawTable :=
  [ { name := "A"
      columns := [{ name := "x", ctype := .integer, values := [.num 1] },
                  { name := "z", ctype := .integer, values := [.num 2] }]
      primary_key := []
      foreign_keys := [{ parent_column := "x", target_table := "B", target_column := "y" },
                       { parent_column := "z", target_table := "B", target_column := "w" }] },
    { name := "B"
      columns := [{ name := "y", ctype := .integer, values := [.num 1] },
                  { name := "w", ctype := .integer, values := [.num 2] }]
      primary_key := []
      foreign_keys := [] } ]

/-- The resolved schema mapping of `dbC9`. -/
def dbC9Loaded : List (String × ResolvedTable) :=
  (load_tables_from_database "p" "d" dbC9).getD []

/-- The resolved entry of table `A` of `dbC9`. -/
def dbC9EntryA : String × ResolvedTable :=
  dbC9Loaded.headD ("", ⟨⟨"", "", "", [], [], [], none, []⟩, []⟩)

/-- A two-column DataFrame with missing cells in both an object-dtyped and a
float-dtyped column. -/
def dfC7 : PdDataFrame :=
  ⟨[ { name := "dept", dtype := .object, cells := [.str "eng", .null, .str "hr"] },
     { name := "salary", dtype := .float, cells := [.null, .num 100] } ]⟩

/-! ### Dictionary lemmas -/

theorem dictInsert_mem {β : Type} {k : String} {v : β} :
    ∀ {l : List (String × β)} {e : String × β},
      e ∈ dictInsert k v l → e = (k, v) ∨ e ∈ l := by
  intro l
  induction l with
  | nil => intro e h; simpa [dictInsert] using h
  | cons p rest ih =>
    intro e h
    rw [show dictInsert k v (p :: rest)
          = if p.1 = k then (k, v) :: rest else p :: dictInsert k v rest
        from rfl] at h
    by_cases hk : p.1 = k
    · rw [if_pos hk] at h
      rcases List.mem_cons.mp h with h1 | h1
      · exact Or.inl h1
      · exact Or.inr (List.mem_cons_of_mem _ h1)
    · rw [if_neg hk] at h
      rcases List.mem_cons.mp h with h1 | h1
      · exact Or.inr (h1 ▸ List.mem_cons_self _ _)
      · rcases ih h1 with h2 | h2
        · exact Or.inl h2
        · exact Or.inr (List.mem_cons_of_mem _ h2)

theorem dictLookup_insert_self {β : Type} {k : String} {v : β} :
    ∀ {l : List (String × β)}, dictLookup (dictInsert k v l) k = some v := by
  intro l
  induction l with
  | nil => simp [dictInsert, dictLookup]
  | cons p rest ih =>
    rw [show dictInsert k v (p :: rest)
          = if p.1 = k then (k, v) :: rest else p :: dictInsert k v rest
        from rfl]
    by_cases hk : p.1 = k
    · rw [if_pos hk]; simp [dictLookup]
    · rw [if_neg hk]
      rw [show dictLookup (p :: dictInsert k v rest) k
            = if p.1 = k then some p.2 else dictLookup (dictInsert k v rest) k
          from rfl]
      rw [if_neg hk]; exact ih

theorem dictLookup_insert_ne {β : Type} {k k2 : String} {v : β}
    (hne : k2 ≠ k) :
    ∀ {l : List (String × β)}, dictLookup (dictInsert k2 v l) k = dictLookup l k := by
  intro l
  induction l with
  | nil => simp [dictInsert, dictLookup, hne]
  | cons p rest ih =>
    rw [show dictInsert k2 v (p :: rest)
          = if p.1 = k2 then (k2, v) :: rest else p :: dictInsert k2 v rest
        from rfl]
    by_cases hk : p.1 = k2
    · rw [if_pos hk]
      rw [show dictLookup ((k2, v) :: rest) k
            = if k2 = k then some v else dictLookup rest k from rfl]
      rw [show dictLookup (p :: rest) k
            = if p.1 = k then some p.2 else dictLookup rest k from rfl]
      rw [if_neg hne, if_neg (by rw [hk]; exact hne)]
    · rw [if_neg hk]
      rw [show dictLookup (p :: dictInsert k2 v rest) k
            = if p.1 = k then some p.2 else dictLookup (dictInsert k2 v rest) k
          from rfl]
      rw [show dictLookup (p :: rest) k
            = if p.1 = k then some p.2 else dictLookup rest k from rfl]
      by_cases hp : p.1 = k
      · rw [if_pos hp, if_pos hp]
      · rw [if_neg hp, if_neg hp]; exact ih

theorem dictInsert_of_not_mem_keys {β : Type} {k : String} {v : β} :
    ∀ {l : List (String × β)}, k ∉ l.map Prod.fst →
      dictInsert k v l = l ++ [(k, v)] := by
  intro l
  induction l with
  | nil => intro _; rfl
  | cons p rest ih =>
    intro h
    simp only [List.map_cons, List.mem_cons] at h
    push_neg at h
    rw [show dictInsert k v (p :: rest)
          = if p.1 = k then (k, v) :: rest else p :: dictInsert k v rest
        from rfl]
    rw [if_neg (fun he => h.1 he.symm), ih h.2]
    rfl

/-! ### Sampling lemmas -/

theorem sampleWithoutReplacement_length {α : Type} :
    ∀ (k : Nat) (xs : List α) (rng : RNG),
      (sampleWithoutReplacement k xs rng).1.length = min k xs.length := by
  intro k
  induction k with
  | zero => intro xs rng; simp [sampleWithoutReplacement]
  | succ k ih =>
    intro xs rng
    cases xs with
    | nil => simp [sampleWithoutReplacement, pickOne]
    | cons x rest =>
      have hlt : rng.next.1 % (x :: rest).length < (x :: rest).length :=
        Nat.mod_lt _ (by simp)
      rw [show sampleWithoutReplacement (k + 1) (x :: rest) rng
            = match pickOne (x :: rest) rng with
              | none => ([], rng)
              | some (y, rest2, rng2) =>
                let p := sampleWithoutReplacement k rest2 rng2
                (y :: p.1, p.2)
          from rfl]
      rw [show pickOne (x :: rest) rng
            = some ((x :: rest).getD (rng.next.1 % (x :: rest).length) x,
                (x :: rest).take (rng.next.1 % (x :: rest).length)
                  ++ (x :: rest).drop (rng.next.1 % (x :: rest).length + 1),
                rng.next.2)
          from rfl]
      simp only [List.length_cons, ih, List.length_append, List.length_take,
        List.length_drop]
      simp only [List.length_cons] at hlt
      omega

theorem utilsListSample_length {α : Type} (xs : List α) (k : Nat) (rng : RNG) :
    (utilsListSample xs k rng).1.length = min k xs.length := by
  unfold utilsListSample
  split
  · next h => exact (Nat.min_eq_right h).symm
  · next h => exact sampleWithoutReplacement_length k xs rng

/-! ### Select generator lemmas -/

theorem whereCatOps_spec {tableName colName : String} {md : ConnectorTableColumn} :
    ∀ {ops : List (String × String)} {rng : RNG} {ts : List SingleQA} {rng2 : RNG},
      whereCatOps tableName colName md ops rng = some (ts, rng2) →
      ts.length = ops.length ∧ ∀ qa ∈ ts, qa.sql_tag = "WHERE-CAT" := by
  intro ops
  induction ops with
  | nil =>
    intro rng ts rng2 h
    rw [whereCatOps] at h
    simp only [Option.some.injEq, Prod.mk.injEq] at h
    obtain ⟨h1, _⟩ := h
    subst h1
    simp
  | cons op ops ih =>
    intro rng ts rng2 h
    obtain ⟨opSql, opTxt⟩ := op
    rw [whereCatOps] at h
    split at h
    · exact Option.noConfusion h
    · rename_i elem rng1 hc
      split at h
      · exact Option.noConfusion h
      · rename_i rest rngr hrec
        simp only [Option.some.injEq, Prod.mk.injEq] at h
        obtain ⟨hts, _⟩ := h
        obtain ⟨hlen, htag⟩ := ih hrec
        subst hts
        refine ⟨by simp [hlen], ?_⟩
        intro qa hqa
        rcases List.mem_cons.mp hqa with h1 | h1
        · subst h1; rfl
        · exact htag qa h1

theorem whereCatCols_spec {tableName : String} :
    ∀ {cols : List (String × ConnectorTableColumn)} {rng : RNG} {ts : List SingleQA}
      {rng2 : RNG},
      whereCatCols tableName cols rng = some (ts, rng2) →
      ts.length = 3 * cols.length ∧ ∀ qa ∈ ts, qa.sql_tag = "WHERE-CAT" := by
  intro cols
  induction cols with
  | nil =>
    intro rng ts rng2 h
    rw [whereCatCols] at h
    simp only [Option.some.injEq, Prod.mk.injEq] at h
    obtain ⟨h1, _⟩ := h
    subst h1
    simp
  | cons p rest ih =>
    intro rng ts rng2 h
    obtain ⟨colName, md⟩ := p
    rw [whereCatCols] at h
    split at h
    · exact Option.noConfusion h
    · rename_i ts1 rng1 hops
      split at h
      · exact Option.noConfusion h
      · rename_i ts2 rngr hrec
        simp only [Option.some.injEq, Prod.mk.injEq] at h
        obtain ⟨hts, _⟩ := h
        obtain ⟨hlen1, htag1⟩ := whereCatOps_spec hops
        obtain ⟨hlen2, htag2⟩ := ih hrec
        subst hts
        constructor
        · simp only [List.length_append, hlen1, hlen2, List.length_cons]
          show selectCatOperations.length + 3 * rest.length = 3 * (rest.length + 1)
          simp [selectCatOperations]
          ring
        · intro qa hqa
          rcases List.mem_append.mp hqa with h1 | h1
          · exact htag1 qa h1
          · exact htag2 qa h1

theorem test_where_cat_spec {catCols : List (String × ConnectorTableColumn)}
    {tableName : String} {rng : RNG} {ts : List SingleQA} {rng2 : RNG}
    (h : test_where_cat catCols tableName rng = some (ts, rng2)) :
    ts.length = 3 * min 3 catCols.length ∧ ∀ qa ∈ ts, qa.sql_tag = "WHERE-CAT" := by
  unfold test_where_cat at h
  have hlen := utilsListSample_length catCols 3 rng
  rcases hs : utilsListSample catCols 3 rng with ⟨sampled, rng1⟩
  rw [hs] at h hlen
  obtain ⟨h1, h2⟩ := whereCatCols_spec h
  exact ⟨by rw [h1, hlen], h2⟩

theorem whereNumOps_spec {tableName colName : String} {md : ConnectorTableColumn} :
    ∀ {ops : List (String × String)} {rng : RNG} {ts : List SingleQA} {rng2 : RNG},
      whereNumOps tableName colName md ops rng = some (ts, rng2) →
      ∀ qa ∈ ts, qa.sql_tag = "WHERE-NUM" ∧
        ∃ opSql lit, qa.query = whereNumQuery tableName colName opSql lit := by
  intro ops
  induction ops with
  | nil =>
    intro rng ts rng2 h
    rw [whereNumOps] at h
    simp only [Option.some.injEq, Prod.mk.injEq] at h
    obtain ⟨h1, _⟩ := h
    subst h1
    simp
  | cons op ops ih =>
    intro rng ts rng2 h
    obtain ⟨opSql, opTxt⟩ := op
    rw [whereNumOps] at h
    split at h
    · exact Option.noConfusion h
    · rename_i elem rng1 hc
      split at h
      · exact Option.noConfusion h
      · rename_i rest rngr hrec
        simp only [Option.some.injEq, Prod.mk.injEq] at h
        obtain ⟨hts, _⟩ := h
        subst hts
        intro qa hqa
        rcases List.mem_cons.mp hqa with h1 | h1
        · subst h1
          exact ⟨rfl, opSql, elem.toPyStr, rfl⟩
        · exact ih hrec qa h1

theorem whereNumCols_spec {tableName : String} :
    ∀ {cols : List (String × ConnectorTableColumn)} {rng : RNG} {ts : List SingleQA}
      {rng2 : RNG},
      whereNumCols tableName cols rng = some (ts, rng2) →
      ∀ qa ∈ ts, qa.sql_tag = "WHERE-NUM" ∧
        ∃ e ∈ cols, ∃ opSql lit, qa.query = whereNumQuery tableName e.1 opSql lit := by
  intro cols
  induction cols with
  | nil =>
    intro rng ts rng2 h
    rw [whereNumCols] at h
    simp only [Option.some.injEq, Prod.mk.injEq] at h
    obtain ⟨h1, _⟩ := h
    subst h1
    simp
  | cons p rest ih =>
    intro rng ts rng2 h
    obtain ⟨colName, md⟩ := p
    rw [whereNumCols] at h
    split at h
    · exact Option.noConfusion h
    · rename_i ts1 rng1 hops
      split at h
      · exact Option.noConfusion h
      · rename_i ts2 rngr hrec
        simp only [Option.some.injEq, Prod.mk.injEq] at h
        obtain ⟨hts, _⟩ := h
        subst hts
        intro qa hqa
        rcases List.mem_append.mp hqa with h1 | h1
        · obtain ⟨htag, opSql, lit, hq⟩ := whereNumOps_spec hops qa h1
          exact ⟨htag, (colName, md), List.mem_cons_self _ _, opSql, lit, hq⟩
        · obtain ⟨htag, e, he, opSql, lit, hq⟩ := ih hrec qa h1
          exact ⟨htag, e, List.mem_cons_of_mem _ he, opSql, lit, hq⟩

theorem test_where_num_filtered_no_id (numCols : List (String × ConnectorTableColumn)) :
    ∀ (names : List String) (acc : List (String × ConnectorTableColumn)),
      (∀ e ∈ acc, containsId e.1 = false) →
      ∀ e ∈ names.foldl
        (fun acc col =>
          if containsId col then acc
          else
            match dictLookup numCols col with
            | some md => dictInsert col md acc
            | none => acc) acc,
        containsId e.1 = false := by
  intro names
  induction names with
  | nil => intro acc hacc e he; exact hacc e he
  | cons col rest ih =>
    intro acc hacc e he
    rw [List.foldl_cons] at he
    by_cases hid : containsId col
    · rw [if_pos hid] at he
      exact ih _ hacc e he
    · rw [if_neg hid] at he
      rcases hl : dictLookup numCols col with _ | md <;> rw [hl] at he
      · exact ih _ hacc e he
      · refine ih _ ?_ e he
        intro e2 he2
        rcases dictInsert_mem he2 with h1 | h1
        · rw [h1]
          exact Bool.not_eq_true _ ▸ (by simpa using hid)
        · exact hacc e2 h1

theorem test_where_num_spec {numCols : List (String × ConnectorTableColumn)}
    {tableName : String} {rng : RNG} {ts : List SingleQA} {rng2 : RNG}
    (h : test_where_num numCols tableName rng = some (ts, rng2)) :
    ∀ qa ∈ ts, qa.sql_tag = "WHERE-NUM" ∧
      ∃ colName opSql lit, containsId colName = false ∧
        qa.query = whereNumQuery tableName colName opSql lit := by
  unfold test_where_num at h
  rcases hs : utilsListSample (numCols.map Prod.fst) 3 rng with ⟨names, rng1⟩
  rw [hs] at h
  intro qa hqa
  obtain ⟨htag, e, he, opSql, lit, hq⟩ := whereNumCols_spec h qa hqa
  have hfil := test_where_num_filtered_no_id numCols names []
    (by intro e2 he2; cases he2) e he
  exact ⟨htag, e.1, opSql, lit, hfil, hq⟩

theorem whereCatOps_empty_none {tableName colName : String}
    {md : ConnectorTableColumn} (hemp : md.sample_data = []) (rng : RNG) :
    whereCatOps tableName colName md selectCatOperations rng = none := by
  rw [show selectCatOperations
        = ("==", "is equal to")
          :: [("!=", "is different from"), ("!=", "not equal to")] from rfl]
  rw [whereCatOps]
  rw [show randomChoice md.sample_data rng = none from by rw [hemp]; rfl]

theorem whereCatCols_none {tableName : String} :
    ∀ {cols : List (String × ConnectorTableColumn)} {rng : RNG}
      {e : String × ConnectorTableColumn},
      e ∈ cols → e.2.sample_data = [] → whereCatCols tableName cols rng = none := by
  intro cols
  induction cols with
  | nil => intro rng e he _; cases he
  | cons p rest ih =>
    intro rng e he hemp
    rcases List.mem_cons.mp he with h1 | h1
    · subst h1
      rw [whereCatCols, whereCatOps_empty_none hemp]
    · rw [whereCatCols]
      split
      · rfl
      · rename_i ts1 rng1 hops
        rw [ih h1 hemp]

/-! ### Claim theorems for the Select generator -/

theorem randomChoice_isSome {α : Type} {xs : List α} (h : xs ≠ []) (rng : RNG) :
    ∃ pr, randomChoice xs rng = some pr := by
  cases xs with
  | nil => exact absurd rfl h
  | cons x rest => exact ⟨_, rfl⟩

theorem whereCatOps_isSome {tableName colName : String}
    {md : ConnectorTableColumn} (hne : md.sample_data ≠ []) :
    ∀ (ops : List (String × String)) (rng : RNG),
      (whereCatOps tableName colName md ops rng).isSome = true := by
  intro ops
  induction ops with
  | nil => intro rng; rfl
  | cons op ops ih =>
    intro rng
    obtain ⟨opSql, opTxt⟩ := op
    obtain ⟨⟨elem, rng1⟩, hc⟩ := randomChoice_isSome hne rng
    obtain ⟨⟨rest, rng2⟩, hrec⟩ := Option.isSome_iff_exists.mp (ih rng1)
    simp only [whereCatOps, hc, hrec, Option.isSome_some]

theorem whereCatCols_isSome {tableName : String} :
    ∀ {cols : List (String × ConnectorTableColumn)},
      (∀ e ∈ cols, e.2.sample_data ≠ []) → ∀ (rng : RNG),
      (whereCatCols tableName cols rng).isSome = true := by
  intro cols
  induction cols with
  | nil => intro _ rng; rfl
  | cons p rest ih =>
    intro h rng
    obtain ⟨⟨ts1, rng1⟩, hops⟩ := Option.isSome_iff_exists.mp
      (whereCatOps_isSome (h p (List.mem_cons_self _ _)) selectCatOperations rng)
    obtain ⟨⟨ts2, rng2⟩, hrec⟩ := Option.isSome_iff_exists.mp
      (ih (fun e he => h e (List.mem_cons_of_mem _ he)) rng1)
    rw [whereCatCols]
    rw [show whereCatOps tableName p.1 p.2 selectCatOperations rng
          = some (ts1, rng1) from hops]
    simp only [hrec, Option.isSome_some]

/-- C1: on every table each of whose sampled categorical columns has at least
one sample value, `SelectGenerator.test_where_cat` succeeds and produces
exactly `3 * min 3 |categorical columns|` records, all tagged WHERE-CAT — the
3 operators crossed with the up-to-3 sampled columns, zero when no
categorical column exists (`min 3 0 = 0`) — and every successful run of the
whole `generate` (`template_generator`) holds exactly that many WHERE-CAT
records. -/
theorem select_where_cat_count (table : ConnectorTable) (rng : RNG)
    (h : ∀ e ∈ (utilsListSample table.cat_col2metadata 3 rng).1,
      e.2.sample_data ≠ []) :
    (∃ ts1 rng1,
      test_where_cat table.cat_col2metadata table.tbl_name rng = some (ts1, rng1)
        ∧ ts1.length = 3 * min 3 table.cat_col2metadata.length
        ∧ ∀ qa ∈ ts1, qa.sql_tag = "WHERE-CAT") ∧
    ∀ ts rng2, template_generator table rng = some (ts, rng2) →
      (ts.filter (fun qa => qa.sql_tag == "WHERE-CAT")).length
        = 3 * min 3 table.cat_col2metadata.length := by
  constructor
  · rcases hs : utilsListSample table.cat_col2metadata 3 rng with ⟨sampled, rng1⟩
    rw [hs] at h
    obtain ⟨⟨ts1, rngo⟩, hcols⟩ := Option.isSome_iff_exists.mp
      (whereCatCols_isSome h rng1)
    have hcat : test_where_cat table.cat_col2metadata table.tbl_name rng
        = some (ts1, rngo) := by
      unfold test_where_cat
      rw [hs]
      exact hcols
    obtain ⟨hlen, htag⟩ := test_where_cat_spec hcat
    exact ⟨ts1, rngo, hcat, hlen, htag⟩
  · intro ts rng2 hgen
    rw [template_generator] at hgen
    split at hgen
    · exact Option.noConfusion hgen
    · rename_i t1 rng1 hcat
      split at hgen
      · exact Option.noConfusion hgen
      · rename_i t2 rngr hnum
        simp only [Option.some.injEq, Prod.mk.injEq] at hgen
        obtain ⟨hts, _⟩ := hgen
        subst hts
        obtain ⟨hlen, htag1⟩ := test_where_cat_spec hcat
        have htag2 := test_where_num_spec hnum
        rw [List.filter_append]
        have h1 : t1.filter (fun qa => qa.sql_tag == "WHERE-CAT") = t1 :=
          List.filter_eq_self.mpr (fun qa hqa => by rw [htag1 qa hqa]; rfl)
        have h2 : t2.filter (fun qa => qa.sql_tag == "WHERE-CAT") = [] :=
          List.filter_eq_nil_iff.mpr (fun qa hqa => by
            rw [(htag2 qa hqa).1]; decide)
        rw [h1, h2]
        simp [hlen]

/-- C1 witness: on the concrete `Employees` table `tblW` (one categorical and
one numerical column, both with sample values) the Select generator emits
exactly `3 * min 3 1 = 3` WHERE-CAT records. -/
theorem select_where_cat_count_witness :
    (∃ ts1 rng1,
      test_where_cat tblW.cat_col2metadata tblW.tbl_name [] = some (ts1, rng1)
        ∧ ts1.length = 3 * min 3 tblW.cat_col2metadata.length
        ∧ ∀ qa ∈ ts1, qa.sql_tag = "WHERE-CAT") ∧
    ∀ ts rng2, template_generator tblW [] = some (ts, rng2) →
      (ts.filter (fun qa => qa.sql_tag == "WHERE-CAT")).length
        = 3 * min 3 tblW.cat_col2metadata.length :=
  select_where_cat_count tblW [] (by decide)

/-- C3 counterexample: on the table `tblEP`, whose only categorical column has
an empty sample pool (a table with no rows), the Select generator does NOT
skip the column and emit no record for it: the whole `generate` call fails —
`random.choice` on the empty pool raises IndexError, embedded as `none` — so
the claim's skip-and-continue behavior does not hold on the code. -/
theorem empty_pool_counterexample : template_generator tblEP [] = none := rfl

/-- C3 (amended): when the sample pool of one of the sampled categorical
columns is empty, `SelectGenerator.template_generator` produces no records at
all — the call fails on `random.choice` of the empty pool — instead of
skipping that column; in particular no record with a null literal is ever
emitted for it. -/
theorem empty_pool_generate_fails (table : ConnectorTable) (rng : RNG)
    (h : ∃ e ∈ (utilsListSample table.cat_col2metadata 3 rng).1,
      e.2.sample_data = []) :
    template_generator table rng = none := by
  obtain ⟨e, he, hemp⟩ := h
  have hcat : test_where_cat table.cat_col2metadata table.tbl_name rng = none := by
    unfold test_where_cat
    rcases hs : utilsListSample table.cat_col2metadata 3 rng with ⟨sampled, rng1⟩
    rw [hs] at he
    exact whereCatCols_none he hemp
  rw [template_generator, hcat]

/-- C3 witness: the amended behavior at the concrete empty-pool table. -/
theorem empty_pool_generate_fails_witness :
    (∃ e ∈ (utilsListSample tblEP.cat_col2metadata 3 []).1,
      e.2.sample_data = ([] : List Value)) ∧
      template_generator tblEP [] = none :=
  ⟨by decide, empty_pool_generate_fails tblEP [] (by decide)⟩

/-- C5: every WHERE-NUM record the Select generator emits draws its predicate
column from the filtered dict, so its query is built over a column name that
does not contain `id` case-insensitively. -/
theorem where_num_no_id_columns (table : ConnectorTable) (rng : RNG)
    (ts : List SingleQA) (rng2 : RNG) (qa : SingleQA)
    (h : template_generator table rng = some (ts, rng2))
    (hqa : qa ∈ ts) (htag : qa.sql_tag = "WHERE-NUM") :
    ∃ colName opSql lit, containsId colName = false ∧
      qa.query = whereNumQuery table.tbl_name colName opSql lit := by
  rw [template_generator] at h
  split at h
  · exact Option.noConfusion h
  · rename_i t1 rng1 hcat
    split at h
    · exact Option.noConfusion h
    · rename_i t2 rngr hnum
      simp only [Option.some.injEq, Prod.mk.injEq] at h
      obtain ⟨hts, _⟩ := h
      subst hts
      rcases List.mem_append.mp hqa with h1 | h1
      · have := (test_where_cat_spec hcat).2 qa h1
        rw [this] at htag
        exact absurd htag (by decide)
      · obtain ⟨_, colName, opSql, lit, hok, hq⟩ := test_where_num_spec hnum qa h1
        exact ⟨colName, opSql, lit, hok, hq⟩

/-- C5 witness: on the table `tblNum` (numerical columns `user_ID` and
`salary`) the first emitted record is a WHERE-NUM test over a non-key-like
column. -/
theorem where_num_no_id_columns_witness :
    ∃ colName opSql lit, containsId colName = false ∧
      (tblNumOut.1.headD ⟨"", "", ""⟩).query
        = whereNumQuery tblNum.tbl_name colName opSql lit :=
  where_num_no_id_columns tblNum [] tblNumOut.1 tblNumOut.2
    (tblNumOut.1.headD ⟨"", "", ""⟩) rfl (by decide) (by decide)

/-- C8: with the received `ConnectorTable` threaded as mutable state, the
Select generator's `template_generator` returns exactly the pure result and
the UNCHANGED table: the generator never mutates the schema it receives —
its column mappings, sample values, primary key and foreign keys are all
identical before and after the call. -/
theorem generator_leaves_table_unchanged (table : ConnectorTable) (rng : RNG) :
    (templateGeneratorST rng).run table = (template_generator table rng, table) := rfl

/-! ### Claim theorems for the orchestrator and the connector constructor -/

/-- C4 counterexample: on zero generated records, `generate_dataset` does log
exactly one warning naming the database path, but the empty frame it returns
has NO columns (`pd.DataFrame` of an empty list), not the seven dataset
columns the claim asserts. -/
theorem empty_dataset_counterexample :
    (generate_dataset_tail "data/mydb.sqlite" []).1.columns = [] ∧
    (generate_dataset_tail "data/mydb.sqlite" []).2
      = ["QATCH not able to generate tests from data/mydb.sqlite"] ∧
    ([] : List String) ≠ datasetColumns :=
  ⟨rfl, rfl, by decide⟩

/-- C4 (amended): whenever zero records are generated, `generate_dataset`
logs exactly one warning identifying the connector's database path and
returns an empty (zero-row) frame — but that frame has NO columns, since the
column projection is only applied to non-empty frames. -/
theorem empty_dataset_warning (db_path : String) :
    generate_dataset_tail db_path []
      = ({ columns := [], records := [] },
        [s!"QATCH not able to generate tests from {db_path}"]) := rfl

/-- C6: `SqliteConnector.__init__` fails with SchemaConflict exactly when the
reflected database already holds tables AND table data is supplied (a
non-empty mapping — Python truthiness treats an empty dict as no data), fails
with SchemaEmpty exactly when the database holds no tables and no table data
is supplied, and succeeds exactly when one of the two sources is available. -/
theorem schema_init_error_conditions {α : Type} (reflected : List String)
    (tables : Option (List (String × α))) :
    (sqliteConnectorInit reflected tables = .error .conflict
        ↔ reflected ≠ [] ∧ suppliedTables tables = true) ∧
    (sqliteConnectorInit reflected tables = .error .empty
        ↔ reflected = [] ∧ suppliedTables tables = false) ∧
    ((∃ names, sqliteConnectorInit reflected tables = .ok names)
        ↔ (reflected ≠ [] ∧ suppliedTables tables = false)
          ∨ (reflected = [] ∧ suppliedTables tables = true)) := by
  by_cases hr : reflected = [] <;> by_cases ht : suppliedTables tables = true <;>
    simp [sqliteConnectorInit, hr, ht, Bool.not_eq_true] at *

/-- C10: `_set_tables_in_db` factors exactly through the rename `'table' ↦
'my_table'`: it stores the supplied tables, each under `createdTableName` of
its supplied name, so a table supplied as `'table'` is silently created as
`'my_table'` and every other supplied name is used unchanged. -/
theorem set_tables_rename {α : Type} (tables : List (String × α))
    (db : List (String × α)) :
    set_tables_in_db tables db
      = set_tables_in_db_no_rename
          (tables.map (fun p => (createdTableName p.1, p.2))) db := by
  rw [set_tables_in_db_no_rename, List.foldl_map]
  rfl

/-! ### Missing-value replacement lemmas (legacy generator base) -/

theorem fillna_name (s : Value) (c : PdColumn) : (fillna s c).name = c.name := rfl

theorem foldl_dfFillCol (s : Value) :
    ∀ (ns : List String) (df : PdDataFrame), ns.Nodup →
      (ns.foldl (fun d n => dfFillCol d n s) df).cols
        = df.cols.map (fun c => if c.name ∈ ns then fillna s c else c) := by
  intro ns
  induction ns with
  | nil => intro df _; simp
  | cons n ns ih =>
    intro df hnd
    obtain ⟨hn1, hn2⟩ := List.nodup_cons.mp hnd
    rw [List.foldl_cons, ih _ hn2]
    rw [show (dfFillCol df n s).cols
          = df.cols.map (fun c => if c.name = n then fillna s c else c) from rfl]
    rw [List.map_map]
    refine List.map_congr_left ?_
    intro c _
    by_cases h1 : c.name = n
    · simp [Function.comp, h1, fillna_name, hn1]
    · simp [Function.comp, h1, List.mem_cons]

theorem mem_dtype_names_iff {df : PdDataFrame}
    (hnd : (df.cols.map PdColumn.name).Nodup) (dt : PdDtype) {c : PdColumn}
    (hc : c ∈ df.cols) :
    c.name ∈ (df.cols.filter (fun c2 => c2.dtype = dt)).map (fun c2 => c2.name)
      ↔ c.dtype = dt := by
  constructor
  · intro h
    obtain ⟨c2, hc2, hname⟩ := List.mem_map.mp h
    have hc2cols : c2 ∈ df.cols := List.mem_of_mem_filter hc2
    have he : c2 = c := List.inj_on_of_nodup_map hnd hc2cols hc hname
    subst he
    simpa using List.of_mem_filter hc2
  · intro h
    exact List.mem_map.mpr ⟨c, List.mem_filter.mpr ⟨hc, by simpa using h⟩, rfl⟩

theorem dtype_names_nodup {df : PdDataFrame}
    (hnd : (df.cols.map PdColumn.name).Nodup) (p : PdColumn → Bool) :
    ((df.cols.filter p).map (fun c2 => c2.name)).Nodup := by
  have hsub : ((df.cols.filter p).map (fun c2 => c2.name)).Sublist
      (df.cols.map (fun c2 => c2.name)) :=
    List.Sublist.map _ (List.filter_sublist _)
  exact hsub.nodup (by simpa [PdColumn.name] using hnd)

/-- C7: `_get_df_cat_num_cols` replaces every missing value before any
sampling: in every object-dtyped (categorical) column each missing cell
becomes the sentinel string `"unknown"`, in every float- or int-dtyped
(numerical) column each missing cell becomes `0`, and every other column is
untouched — so only substituted values, never nulls, can be drawn as literals
from the categorical and numerical columns. -/
theorem missing_values_replaced (df : PdDataFrame) (sample : Option Nat)
    (rng : RNG) (hnd : (df.cols.map PdColumn.name).Nodup) :
    (get_df_cat_num_cols df sample rng).1.cols
      = df.cols.map (fun c =>
          if c.dtype = PdDtype.object then fillna (Value.str "unknown") c
          else if c.dtype = PdDtype.float ∨ c.dtype = PdDtype.int then
            fillna (Value.num 0) c
          else c) := by
  have hcatnd : ((df.cols.filter (fun c2 => c2.dtype = PdDtype.object)).map
      (fun c2 => c2.name)).Nodup := dtype_names_nodup hnd _
  have hfloatnd : ((df.cols.filter (fun c2 => c2.dtype = PdDtype.float)).map
      (fun c2 => c2.name)).Nodup := dtype_names_nodup hnd _
  have hintnd : ((df.cols.filter (fun c2 => c2.dtype = PdDtype.int)).map
      (fun c2 => c2.name)).Nodup := dtype_names_nodup hnd _
  have hdisj : ((df.cols.filter (fun c2 => c2.dtype = PdDtype.float)).map
      (fun c2 => c2.name)).Disjoint
      ((df.cols.filter (fun c2 => c2.dtype = PdDtype.int)).map (fun c2 => c2.name)) := by
    intro a haf hai
    obtain ⟨c1, hc1, hn1⟩ := List.mem_map.mp haf
    obtain ⟨c2, hc2, hn2⟩ := List.mem_map.mp hai
    have he : c1 = c2 := List.inj_on_of_nodup_map hnd
      (List.mem_of_mem_filter hc1) (List.mem_of_mem_filter hc2)
      (hn1.trans hn2.symm)
    have d1 := List.of_mem_filter hc1
    have d2 := List.of_mem_filter hc2
    rw [he] at d1
    simp only [decide_eq_true_eq] at d1 d2
    rw [d1] at d2
    cases d2
  have hnumnd : (((df.cols.filter (fun c2 => c2.dtype = PdDtype.float)).map
      (fun c2 => c2.name))
      ++ ((df.cols.filter (fun c2 => c2.dtype = PdDtype.int)).map
        (fun c2 => c2.name))).Nodup :=
    List.Nodup.append hfloatnd hintnd hdisj
  have step1 := foldl_dfFillCol (Value.str "unknown")
    ((df.cols.filter (fun c2 => c2.dtype = PdDtype.object)).map (fun c2 => c2.name))
    df hcatnd
  cases sample with
  | none =>
    show ((((df.cols.filter (fun c2 => c2.dtype = PdDtype.float)).map (fun c2 => c2.name))
        ++ ((df.cols.filter (fun c2 => c2.dtype = PdDtype.int)).map (fun c2 => c2.name))).foldl
          (fun d n => dfFillCol d n (Value.num 0))
          (((df.cols.filter (fun c2 => c2.dtype = PdDtype.object)).map
            (fun c2 => c2.name)).foldl
            (fun d n => dfFillCol d n (Value.str "unknown")) df)).cols = _
    rw [foldl_dfFillCol _ _ _ hnumnd, step1]
    rw [List.map_map]
    refine List.map_congr_left ?_
    intro c hc
    have hobj := mem_dtype_names_iff hnd PdDtype.object hc
    have hflo := mem_dtype_names_iff hnd PdDtype.float hc
    have hint := mem_dtype_names_iff hnd PdDtype.int hc
    cases hdt : c.dtype <;>
      simp [Function.comp, List.mem_append, fillna_name, hobj, hflo, hint, hdt]
  | some k =>
    show ((((df.cols.filter (fun c2 => c2.dtype = PdDtype.float)).map (fun c2 => c2.name))
        ++ ((df.cols.filter (fun c2 => c2.dtype = PdDtype.int)).map (fun c2 => c2.name))).foldl
          (fun d n => dfFillCol d n (Value.num 0))
          (((df.cols.filter (fun c2 => c2.dtype = PdDtype.object)).map
            (fun c2 => c2.name)).foldl
            (fun d n => dfFillCol d n (Value.str "unknown")) df)).cols = _
    rw [foldl_dfFillCol _ _ _ hnumnd, step1]
    rw [List.map_map]
    refine List.map_congr_left ?_
    intro c hc
    have hobj := mem_dtype_names_iff hnd PdDtype.object hc
    have hflo := mem_dtype_names_iff hnd PdDtype.float hc
    have hint := mem_dtype_names_iff hnd PdDtype.int hc
    cases hdt : c.dtype <;>
      simp [Function.comp, List.mem_append, fillna_name, hobj, hflo, hint, hdt]

/-- C7 witness: the replacement on a concrete frame with missing cells in an
object column and in a float column. -/
theorem missing_values_replaced_witness :
    (get_df_cat_num_cols dfC7 none []).1.cols
      = dfC7.cols.map (fun c =>
          if c.dtype = PdDtype.object then fillna (Value.str "unknown") c
          else if c.dtype = PdDtype.float ∨ c.dtype = PdDtype.int then
            fillna (Value.num 0) c
          else c) :=
  missing_values_replaced dfC7 none [] (by decide)

/-! ### Foreign-key resolution lemmas -/

theorem dictInsert_keys {β : Type} {k : String} {v : β} :
    ∀ {l : List (String × β)},
      (dictInsert k v l).map Prod.fst
        = if k ∈ l.map Prod.fst then l.map Prod.fst else l.map Prod.fst ++ [k] := by
  intro l
  induction l with
  | nil => simp [dictInsert]
  | cons p rest ih =>
    rw [show dictInsert k v (p :: rest)
          = if p.1 = k then (k, v) :: rest else p :: dictInsert k v rest
        from rfl]
    by_cases hk : p.1 = k
    · rw [if_pos hk]
      simp [hk]
    · rw [if_neg hk]
      simp only [List.map_cons, ih]
      by_cases hm : k ∈ rest.map Prod.fst
      · rw [if_pos hm, if_pos (by simp [hm])]
      · rw [if_neg hm, if_neg (by
          simp only [List.mem_cons]
          push_neg
          exact ⟨fun he => hk he.symm, hm⟩)]
        simp

theorem dictInsert_keys_nodup {β : Type} {k : String} {v : β}
    {l : List (String × β)} (h : (l.map Prod.fst).Nodup) :
    ((dictInsert k v l).map Prod.fst).Nodup := by
  rw [dictInsert_keys]
  by_cases hm : k ∈ l.map Prod.fst
  · rw [if_pos hm]; exact h
  · rw [if_neg hm]
    refine List.Nodup.append h (List.nodup_singleton k) ?_
    intro a ha hb
    rw [List.mem_singleton.mp hb] at ha
    exact hm ha

theorem rawFkDict_keys_nodup (fks : List RawForeignKey) :
    ((rawFkDict fks).map Prod.fst).Nodup := by
  suffices h : ∀ (fks2 : List RawForeignKey) (acc : List (String × String)),
      (acc.map Prod.fst).Nodup →
      ((fks2.foldl (fun acc fk => dictInsert fk.target_table fk.target_column acc)
        acc).map Prod.fst).Nodup by
    exact h fks [] (by simp)
  intro fks2
  induction fks2 with
  | nil => intro acc hacc; exact hacc
  | cons fk rest ih =>
    intro acc hacc
    rw [List.foldl_cons]
    exact ih _ (dictInsert_keys_nodup hacc)

theorem foldl_dictInsert_eq_append {β : Type} :
    ∀ (ps : List (String × β)) (acc : List (String × β)),
      (ps.map Prod.fst).Nodup →
      (∀ p ∈ ps, p.1 ∉ acc.map Prod.fst) →
      ps.foldl (fun a p => dictInsert p.1 p.2 a) acc = acc ++ ps := by
  intro ps
  induction ps with
  | nil => intro acc _ _; simp
  | cons p rest ih =>
    intro acc hnd hdisj
    rw [List.map_cons] at hnd
    obtain ⟨hn1, hn2⟩ := List.nodup_cons.mp hnd
    rw [List.foldl_cons,
      dictInsert_of_not_mem_keys (hdisj p (List.mem_cons_self _ _)),
      ih (acc ++ [p]) hn2]
    · simp
    · intro q hq
      simp only [List.map_append, List.mem_append]
      push_neg
      refine ⟨hdisj q (List.mem_cons_of_mem _ hq), ?_⟩
      simp only [List.map_cons, List.map_nil, List.mem_singleton]
      intro he
      exact hn1 (List.mem_map.mpr ⟨q, hq, he⟩)

theorem rawFkDict_eq_map (fks : List RawForeignKey)
    (h : (fks.map RawForeignKey.target_table).Nodup) :
    rawFkDict fks = fks.map (fun fk => (fk.target_table, fk.target_column)) := by
  have h1 : rawFkDict fks
      = (fks.map (fun fk => (fk.target_table, fk.target_column))).foldl
          (fun a p => dictInsert p.1 p.2 a) [] := by
    rw [List.foldl_map]
    rfl
  rw [h1, foldl_dictInsert_eq_append _ [] (by
      rw [List.map_map]
      simpa using h)
    (by intro p _ hp; simp at hp)]
  simp

theorem resolve_fold_preserve {m0 : List (String × ConnectorTable)} {tc : String}
    {v : ConnectorTable} :
    ∀ {ps : List (String × String)} {acc nfk : List (String × ConnectorTable)},
      ps.foldlM (fun acc fk =>
        (dictLookup m0 fk.1).map (fun tgt => dictInsert fk.2 tgt acc)) acc
        = some nfk →
      tc ∉ ps.map Prod.snd → dictLookup acc tc = some v →
      dictLookup nfk tc = some v := by
  intro ps
  induction ps with
  | nil =>
    intro acc nfk h _ hacc
    simp only [List.foldlM_nil, Option.pure_def, Option.some.injEq] at h
    rw [← h]
    exact hacc
  | cons pr rest ih =>
    intro acc nfk h hmem hacc
    rw [List.foldlM_cons] at h
    rcases hl : dictLookup m0 pr.1 with _ | t0 <;> rw [hl] at h
    · simp at h
    · simp only [Option.map_some, Option.some_bind, Option.bind_eq_bind] at h
      simp only [List.map_cons, List.mem_cons] at hmem
      push_neg at hmem
      refine ih h hmem.2 ?_
      rw [dictLookup_insert_ne (fun he => hmem.1 he.symm)]
      exact hacc

theorem resolve_fold_lookup {m0 : List (String × ConnectorTable)}
    {tt tc : String} :
    ∀ {ps : List (String × String)} {acc nfk : List (String × ConnectorTable)},
      ps.foldlM (fun acc fk =>
        (dictLookup m0 fk.1).map (fun tgt => dictInsert fk.2 tgt acc)) acc
        = some nfk →
      (ps.map Prod.snd).Nodup → (tt, tc) ∈ ps →
      ∃ tgt, dictLookup m0 tt = some tgt ∧ dictLookup nfk tc = some tgt := by
  intro ps
  induction ps with
  | nil => intro acc nfk _ _ hmem; cases hmem
  | cons pr rest ih =>
    intro acc nfk h hnd hmem
    rw [List.foldlM_cons] at h
    rcases hl : dictLookup m0 pr.1 with _ | t0 <;> rw [hl] at h
    · simp at h
    · simp only [Option.map_some, Option.some_bind, Option.bind_eq_bind] at h
      rw [List.map_cons] at hnd
      obtain ⟨hn1, hn2⟩ := List.nodup_cons.mp hnd
      rcases List.mem_cons.mp hmem with h1 | h1
      · have hpr1 : pr.1 = tt := by rw [← h1]
        have hpr2 : pr.2 = tc := by rw [← h1]
        subst hpr1
        subst hpr2
        refine ⟨t0, hl, ?_⟩
        exact resolve_fold_preserve h hn1 dictLookup_insert_self
      · exact ih h hn2 h1

theorem update_fk_lookup {m0 : List (String × ConnectorTable)} :
    ∀ {l : List (String × ConnectorTable)} {m : List (String × ResolvedTable)}
      {k : String} {t : ConnectorTable},
      l.mapM (fun p => (resolve_table_fks m0 p.2).map
        (fun nfk => (p.1, (⟨p.2, nfk⟩ : ResolvedTable)))) = some m →
      dictLookup l k = some t →
      ∃ nfk, resolve_table_fks m0 t = some nfk ∧
        dictLookup m k = some ⟨t, nfk⟩ := by
  intro l
  induction l with
  | nil => intro m k t _ hlook; cases hlook
  | cons p rest ih =>
    intro m k t h hlook
    rw [List.mapM_cons] at h
    rcases hr : resolve_table_fks m0 p.2 with _ | nfk0 <;> rw [hr] at h
    · simp at h
    · rcases hm : rest.mapM (fun p => (resolve_table_fks m0 p.2).map
          (fun nfk => (p.1, (⟨p.2, nfk⟩ : ResolvedTable)))) with _ | qs <;>
        rw [hm] at h
      · simp at h
      · simp only [Option.map_some', Option.some_bind, Option.bind_eq_bind,
          Option.pure_def, Option.some.injEq] at h
        subst h
        rw [show dictLookup (p :: rest) k
              = if p.1 = k then some p.2 else dictLookup rest k from rfl] at hlook
        by_cases hk : p.1 = k
        · rw [if_pos hk] at hlook
          obtain rfl : p.2 = t := Option.some.inj hlook
          refine ⟨nfk0, hr, ?_⟩
          rw [show dictLookup ((p.1, (⟨p.2, nfk0⟩ : ResolvedTable)) :: qs) k
                = if p.1 = k then some (⟨p.2, nfk0⟩ : ResolvedTable)
                  else dictLookup qs k from rfl]
          rw [if_pos hk]
        · rw [if_neg hk] at hlook
          obtain ⟨nfk, h1, h2⟩ := ih hm hlook
          refine ⟨nfk, h1, ?_⟩
          rw [show dictLookup ((p.1, (⟨p.2, nfk0⟩ : ResolvedTable)) :: qs) k
                = if p.1 = k then some (⟨p.2, nfk0⟩ : ResolvedTable)
                  else dictLookup qs k from rfl]
          rw [if_neg hk]
          exact h2

theorem lookup_map_create (db_path db_name : String) :
    ∀ {db : List RawTable} {tbl : RawTable},
      (db.map RawTable.name).Nodup → tbl ∈ db →
      dictLookup (db.map (fun t =>
          (t.name, create_connector_table_from db_path db_name t))) tbl.name
        = some (create_connector_table_from db_path db_name tbl) := by
  intro db
  induction db with
  | nil => intro tbl _ htbl; cases htbl
  | cons d ds ih =>
    intro tbl hnd htbl
    rw [List.map_cons] at hnd
    obtain ⟨hn1, hn2⟩ := List.nodup_cons.mp hnd
    rw [List.map_cons,
      show dictLookup ((d.name, create_connector_table_from db_path db_name d)
            :: ds.map (fun t => (t.name, create_connector_table_from db_path db_name t)))
          tbl.name
        = if d.name = tbl.name
          then some (create_connector_table_from db_path db_name d)
          else dictLookup (ds.map (fun t =>
            (t.name, create_connector_table_from db_path db_name t))) tbl.name
      from rfl]
    rcases List.mem_cons.mp htbl with h1 | h1
    · subst h1
      rw [if_pos rfl]
    · have hne : d.name ≠ tbl.name := by
        intro he
        exact hn1 (List.mem_map.mpr ⟨tbl, h1, he.symm⟩)
      rw [if_neg hne]
      exact ih hn2 h1

theorem lookup_map_create_tbl_name (db_path db_name : String) :
    ∀ {db : List RawTable} {k : String} {tgt : ConnectorTable},
      dictLookup (db.map (fun t =>
        (t.name, create_connector_table_from db_path db_name t))) k = some tgt →
      tgt.tbl_name = k := by
  intro db
  induction db with
  | nil => intro k tgt h; cases h
  | cons d ds ih =>
    intro k tgt h
    rw [List.map_cons,
      show dictLookup ((d.name, create_connector_table_from db_path db_name d)
            :: ds.map (fun t => (t.name, create_connector_table_from db_path db_name t))) k
        = if d.name = k
          then some (create_connector_table_from db_path db_name d)
          else dictLookup (ds.map (fun t =>
            (t.name, create_connector_table_from db_path db_name t))) k
      from rfl] at h
    by_cases hk : d.name = k
    · rw [if_pos hk] at h
      obtain rfl : create_connector_table_from db_path db_name d = tgt :=
        Option.some.inj h
      exact hk
    · rw [if_neg hk] at h
      exact ih h

theorem mapM_mem {α β : Type} (f : α → Option β) :
    ∀ {l : List α} {out : List β}, l.mapM f = some out →
      ∀ b ∈ out, ∃ a ∈ l, f a = some b := by
  intro l
  induction l with
  | nil =>
    intro out h b hb
    simp only [List.mapM_nil, Option.pure_def, Option.some.injEq] at h
    rw [← h] at hb
    cases hb
  | cons a rest ih =>
    intro out h b hb
    rw [List.mapM_cons] at h
    rcases hf : f a with _ | b0 <;> rw [hf] at h
    · simp at h
    · rcases hm : rest.mapM f with _ | bs <;> rw [hm] at h
      · simp at h
      · simp only [Option.map_some', Option.some_bind, Option.bind_eq_bind,
          Option.pure_def, Option.some.injEq] at h
        subst h
        rcases List.mem_cons.mp hb with h1 | h1
        · exact ⟨a, List.mem_cons_self _ _, h1 ▸ hf⟩
        · obtain ⟨a2, ha2, hf2⟩ := ih hm b h1
          exact ⟨a2, List.mem_cons_of_mem _ ha2, hf2⟩

theorem dictLookup_insert_isSome {β : Type} {k k2 : String} {v : β}
    {l : List (String × β)} (h : (dictLookup l k).isSome = true) :
    (dictLookup (dictInsert k2 v l) k).isSome = true := by
  by_cases hk : k2 = k
  · subst hk
    rw [dictLookup_insert_self]
    rfl
  · rw [dictLookup_insert_ne hk]
    exact h

theorem foldl_metadata_isSome_mono {tbl : RawTable} {k : String} :
    ∀ {cols : List RawColumn} {acc : List (String × ConnectorTableColumn)},
      (dictLookup acc k).isSome = true →
      (dictLookup (cols.foldl
        (fun out col =>
          match convert_sqlalchemy_type_to_string col.ctype with
          | none => out
          | some type_string =>
            dictInsert col.name
              { column_name := col.name
                column_type := some type_string
                sample_data := sample_data_from_col tbl col.name (some type_string) }
              out)
        acc) k).isSome = true := by
  intro cols
  induction cols with
  | nil => intro acc h; exact h
  | cons col rest ih =>
    intro acc h
    rw [List.foldl_cons]
    rcases hcv : convert_sqlalchemy_type_to_string col.ctype with _ | ty
    · exact ih h
    · exact ih (dictLookup_insert_isSome h)

theorem get_columns_metadata_key {tbl : RawTable} {c : RawColumn} {ty : String}
    (hc : c ∈ tbl.columns)
    (hcty : convert_sqlalchemy_type_to_string c.ctype = some ty) :
    (dictLookup (get_columns_metadata_from tbl) c.name).isSome = true := by
  suffices h : ∀ (cols : List RawColumn) (acc : List (String × ConnectorTableColumn)),
      c ∈ cols →
      (dictLookup (cols.foldl
        (fun out col =>
          match convert_sqlalchemy_type_to_string col.ctype with
          | none => out
          | some type_string =>
            dictInsert col.name
              { column_name := col.name
                column_type := some type_string
                sample_data := sample_data_from_col tbl col.name (some type_string) }
              out)
        acc) c.name).isSome = true by
    exact h tbl.columns [] hc
  intro cols
  induction cols with
  | nil => intro acc hmem; cases hmem
  | cons col rest ih =>
    intro acc hmem
    rw [List.foldl_cons]
    rcases List.mem_cons.mp hmem with h1 | h1
    · subst h1
      rw [show (match convert_sqlalchemy_type_to_string c.ctype with
          | none => acc
          | some type_string =>
            dictInsert c.name
              { column_name := c.name
                column_type := some type_string
                sample_data := sample_data_from_col tbl c.name (some type_string) }
              acc)
          = dictInsert c.name
              { column_name := c.name
                column_type := some ty
                sample_data := sample_data_from_col tbl c.name (some ty) }
              acc from by rw [hcty]]
      exact foldl_metadata_isSome_mono (by
        rw [dictLookup_insert_self]
        rfl)
    · exact ih _ h1

theorem countP_dictInsert_le {β : Type} (p : String × β → Bool) (k : String)
    (v : β) :
    ∀ (l : List (String × β)),
      (dictInsert k v l).countP p ≤ l.countP p + (if p (k, v) then 1 else 0) := by
  intro l
  induction l with
  | nil => simp [dictInsert, List.countP_cons]
  | cons q rest ih =>
    rw [show dictInsert k v (q :: rest)
          = if q.1 = k then (k, v) :: rest else q :: dictInsert k v rest
        from rfl]
    by_cases hk : q.1 = k
    · rw [if_pos hk]
      rw [List.countP_cons, List.countP_cons]
      have : (if p (q.1, q.2) then 1 else 0) ≥ 0 := Nat.zero_le _
      omega
    · rw [if_neg hk]
      rw [List.countP_cons, List.countP_cons]
      have := ih
      omega

theorem resolve_countP_le {m0 : List (String × ConnectorTable)} {T : String}
    (hwf : ∀ tt t, dictLookup m0 tt = some t → t.tbl_name = tt) :
    ∀ {ps : List (String × String)} {acc nfk : List (String × ConnectorTable)},
      ps.foldlM (fun acc fk =>
        (dictLookup m0 fk.1).map (fun tgt => dictInsert fk.2 tgt acc)) acc
        = some nfk →
      nfk.countP (fun e => e.2.tbl_name == T)
        ≤ acc.countP (fun e => e.2.tbl_name == T)
          + ps.countP (fun pr => pr.1 == T) := by
  intro ps
  induction ps with
  | nil =>
    intro acc nfk h
    simp only [List.foldlM_nil, Option.pure_def, Option.some.injEq] at h
    rw [← h]
    simp
  | cons pr rest ih =>
    intro acc nfk h
    rw [List.foldlM_cons] at h
    rcases hl : dictLookup m0 pr.1 with _ | t0 <;> rw [hl] at h
    · simp at h
    · simp only [Option.map_some', Option.some_bind, Option.bind_eq_bind] at h
      have h1 := ih h
      have h2 := countP_dictInsert_le (fun e => e.2.tbl_name == T) pr.2 t0 acc
      rw [show ((pr.2, t0) : String × ConnectorTable).2.tbl_name = pr.1
        from hwf pr.1 t0 hl] at h2
      rw [List.countP_cons]
      have h3 : (if (fun pr => pr.1 == T) pr = true then 1 else 0)
          = (if (pr.1 == T) = true then 1 else 0) := rfl
      rw [h3]
      omega

theorem keys_nodup_countP_le_one (T : String) (ps : List (String × String))
    (hnd : (ps.map Prod.fst).Nodup) :
    ps.countP (fun pr => pr.1 == T) ≤ 1 := by
  have h1 : ps.countP (fun pr => pr.1 == T)
      = (ps.map Prod.fst).countP (fun s => s == T) := by
    rw [List.countP_map]
    rfl
  rw [h1, ← List.count_eq_countP]
  exact List.nodup_iff_count_le_one.mp hnd T

/-! ### Claim theorems for foreign-key resolution -/

/-- C9: after `_update_foreign_key`, every table retains at most one foreign
key per referenced target table: the connector's intermediate raw mapping is
keyed by target table name, so of several raw foreign keys to the same target
table only one entry can survive in the resolved `foreign_keys` mapping. -/
theorem resolved_fk_one_per_target (db_path db_name : String)
    (db : List RawTable) (m : List (String × ResolvedTable))
    (e : String × ResolvedTable) (T : String)
    (hload : load_tables_from_database db_path db_name db = some m)
    (he : e ∈ m) :
    (e.2.resolved_foreign_keys.filter (fun p => p.2.tbl_name == T)).length ≤ 1 := by
  have hload2 : (db.map (fun t =>
      (t.name, create_connector_table_from db_path db_name t))).mapM
      (fun p => (resolve_table_fks
          (db.map (fun t => (t.name, create_connector_table_from db_path db_name t)))
          p.2).map
        (fun nfk => (p.1, (⟨p.2, nfk⟩ : ResolvedTable)))) = some m := hload
  obtain ⟨q, hq, hfq⟩ := mapM_mem _ hload2 e he
  rcases hr : resolve_table_fks
      (db.map (fun t => (t.name, create_connector_table_from db_path db_name t)))
      q.2 with _ | nfk <;> rw [hr] at hfq
  · cases hfq
  · simp only [Option.map_some', Option.some.injEq] at hfq
    have he2 : e.2.resolved_foreign_keys = nfk := by rw [← hfq]
    obtain ⟨t, ht, hqt⟩ := List.mem_map.mp hq
    have hq2 : q.2 = create_connector_table_from db_path db_name t := by
      rw [← hqt]
    have hkeys : ((q.2.foreign_keys).map Prod.fst).Nodup := by
      rw [hq2]
      exact rawFkDict_keys_nodup t.foreign_keys
    have hcount := resolve_countP_le
      (T := T)
      (fun tt t2 h2 => lookup_map_create_tbl_name db_path db_name h2) hr
    simp only [List.countP_nil] at hcount
    have hone := keys_nodup_countP_le_one T q.2.foreign_keys hkeys
    rw [he2, ← List.countP_eq_length_filter]
    omega

/-- C9 witness: in `dbC9`, table `A` declares two raw foreign keys to target
table `B`, and the resolved mapping of `A` keeps at most one entry
referencing `B`. -/
theorem resolved_fk_one_per_target_witness :
    (dbC9EntryA.2.resolved_foreign_keys.filter
      (fun p => p.2.tbl_name == "B")).length ≤ 1 :=
  resolved_fk_one_per_target "p" "d" dbC9 dbC9Loaded dbC9EntryA "B" rfl (by decide)

/-- C2 counterexample: in `dbC2` the (only) raw foreign key of table `A` is
`A.x → B.y`, with local column `x`.  Resolution succeeds, yet the resolved
`foreign_keys` mapping of `A`, looked up at the LOCAL column name `x`, yields
nothing — the resolved mapping is keyed by the target column name — so the
claimed local-column round trip fails on the code. -/
theorem fk_local_lookup_counterexample :
    (load_tables_from_database "p" "d" dbC2).isSome = true ∧
    dbC2Fk.parent_column = "x" ∧
    ((load_tables_from_database "p" "d" dbC2).bind (fun m =>
      (dictLookup m "A").bind (fun r =>
        dictLookup r.resolved_foreign_keys dbC2Fk.parent_column))) = none :=
  ⟨rfl, rfl, rfl⟩

/-- C2 (amended): for every raw foreign key
`(local_column → target_table.target_column)` of a reflected table whose raw
foreign keys name pairwise-distinct target tables and pairwise-distinct
target columns, the owning table's resolved `foreign_keys` mapping, looked up
at the TARGET column name (the connector never records the local column),
yields the resolved schema reference of `target_table`; and since
`target_column` is a column of the target table of a recognized SQLAlchemy
type, that reference's column mapping contains `target_column`. -/
theorem fk_resolution_roundtrip (db_path db_name : String) (db : List RawTable)
    (m : List (String × ResolvedTable)) (tbl : RawTable) (fk : RawForeignKey)
    (tgtTbl : RawTable) (c : RawColumn) (ty : String)
    (hload : load_tables_from_database db_path db_name db = some m)
    (hnames : (db.map RawTable.name).Nodup)
    (htbl : tbl ∈ db) (hfk : fk ∈ tbl.foreign_keys)
    (htts : (tbl.foreign_keys.map RawForeignKey.target_table).Nodup)
    (htcs : (tbl.foreign_keys.map RawForeignKey.target_column).Nodup)
    (htgt : tgtTbl ∈ db) (htgtname : tgtTbl.name = fk.target_table)
    (hc : c ∈ tgtTbl.columns) (hcname : c.name = fk.target_column)
    (hcty : convert_sqlalchemy_type_to_string c.ctype = some ty) :
    ∃ r tgt, dictLookup m tbl.name = some r ∧
      dictLookup r.resolved_foreign_keys fk.target_column = some tgt ∧
      tgt.tbl_name = fk.target_table ∧
      (dictLookup tgt.tbl_col2metadata fk.target_column).isSome = true := by
  have hlook : dictLookup (db.map (fun t =>
      (t.name, create_connector_table_from db_path db_name t))) tbl.name
      = some (create_connector_table_from db_path db_name tbl) :=
    lookup_map_create db_path db_name hnames htbl
  obtain ⟨nfk, hres, hmlook⟩ := update_fk_lookup hload hlook
  have hraw : (create_connector_table_from db_path db_name tbl).foreign_keys
      = tbl.foreign_keys.map (fun fk2 => (fk2.target_table, fk2.target_column)) :=
    rawFkDict_eq_map tbl.foreign_keys htts
  have hmem : (fk.target_table, fk.target_column)
      ∈ (create_connector_table_from db_path db_name tbl).foreign_keys := by
    rw [hraw]
    exact List.mem_map.mpr ⟨fk, hfk, rfl⟩
  have hsnd : (((create_connector_table_from db_path db_name tbl).foreign_keys).map
      Prod.snd).Nodup := by
    rw [hraw, List.map_map]
    simpa using htcs
  obtain ⟨tgt, htgtlook, hnfklook⟩ := resolve_fold_lookup hres hsnd hmem
  have htgtlook2 : dictLookup (db.map (fun t =>
      (t.name, create_connector_table_from db_path db_name t))) fk.target_table
      = some (create_connector_table_from db_path db_name tgtTbl) := by
    have h2 := lookup_map_create db_path db_name hnames htgt
    rw [htgtname] at h2
    exact h2
  rw [htgtlook2] at htgtlook
  obtain rfl : create_connector_table_from db_path db_name tgtTbl = tgt :=
    Option.some.inj htgtlook
  refine ⟨⟨create_connector_table_from db_path db_name tbl, nfk⟩, _, hmlook,
    hnfklook, ?_, ?_⟩
  · show tgtTbl.name = fk.target_table
    exact htgtname
  · show (dictLookup (get_columns_metadata_from tgtTbl) fk.target_column).isSome = true
    rw [← hcname]
    exact get_columns_metadata_key hc hcty

/-- C2 witness: the amended round trip at the concrete database `dbC2`: the
resolved mapping of `A`, looked up at the target column `y`, yields the
resolved schema of `B`, whose columns contain `y`. -/
theorem fk_resolution_roundtrip_witness :
    ∃ r tgt,
      dictLookup ((load_tables_from_database "p" "d" dbC2).getD [])
        dbC2TblA.name = some r ∧
      dictLookup r.resolved_foreign_keys dbC2Fk.target_column = some tgt ∧
      tgt.tbl_name = dbC2Fk.target_table ∧
      (dictLookup tgt.tbl_col2metadata dbC2Fk.target_column).isSome = true :=
  fk_resolution_roundtrip "p" "d" dbC2
    ((load_tables_from_database "p" "d" dbC2).getD [])
    dbC2TblA dbC2Fk dbC2TblB dbC2ColY "numerical"
    rfl (by decide) (by decide) (by decide) (by decide) (by decide) (by decide)
    rfl (by decide) rfl rfl

end QatchSpec
